import Mathlib

/-!
Verification of the RAML splitter (`raml_processor.py`) and layout validator
(`raml_validator.py`) of this repository, against a shallow embedding.

Parsed JSON/YAML documents are modelled by `JValue`; Python dicts are ordered
association lists (insertion order preserved, as in CPython).  Filesystem
effects of the splitter and the reads of the validator are modelled by an
explicit `FS` state of directories and files.  Wall-clock reads
(`datetime.now()`) are modelled by a timestamp string parameter threaded
through one run.  Fallible Python code (statements that can raise) is
modelled with `Option`/result pairs; the catch-all `except` handlers of the
validator convert a raised exception into a single findings entry, which the
embedding mirrors.
-/

/-- A parsed JSON/YAML value.  Objects are ordered association lists,
mirroring CPython dict insertion order. -/
inductive JValue where
  | jnull
  | jbool (b : Bool)
  | jnum (n : Int)
  | jstr (s : String)
  | jarr (xs : List JValue)
  | jobj (kvs : List (String × JValue))

abbrev JObj := List (String × JValue)

abbrev FPath := List String

/-- Python substring test on character lists: `needle in hay`. -/
def containsSub : List Char → List Char → Bool
  | [], needle => needle.isEmpty
  | c :: t, needle => needle.isPrefixOf (c :: t) || containsSub t needle

/-- Python `needle in hay` on strings. -/
def strContainsSub (hay needle : String) : Bool :=
  containsSub hay.toList needle.toList

/-- Python `s.lower()` (ASCII, character by character). -/
def strLower (s : String) : String :=
  ⟨s.toList.map Char.toLower⟩

/-- Python `s.upper()` (ASCII, character by character). -/
def strUpper (s : String) : String :=
  ⟨s.toList.map Char.toUpper⟩

/-- Python `s.startswith(pre)`. -/
def strStartsWith (s pre : String) : Bool :=
  pre.toList.isPrefixOf s.toList

/-- Python `s.endswith(suf)`. -/
def strEndsWith (s suf : String) : Bool :=
  suf.toList.isSuffixOf s.toList

/-- Python `s.strip('/')`: drop every leading and trailing `'/'`. -/
def pyStrip (s : String) : String :=
  ⟨(((s.toList).dropWhile (· == '/')).reverse.dropWhile (· == '/')).reverse⟩

/-- Render a path relative to the default output root `api`, the way a
`pathlib.Path` is interpolated into the validator's messages. -/
def pathStr (p : FPath) : String :=
  String.intercalate "/" ("api" :: p)

/-- Python type name of a value, used inside exception messages. -/
def pyTypeName : JValue → String
  | .jnull => "NoneType"
  | .jbool _ => "bool"
  | .jnum _ => "int"
  | .jstr _ => "str"
  | .jarr _ => "list"
  | .jobj _ => "dict"

/-- Python `field in data` for a JSON value: key membership for dicts,
element equality for lists, substring test for strings; raises `TypeError`
(modelled `none`) on scalars. -/
def pyIn (field : String) : JValue → Option Bool
  | .jobj kvs => some (kvs.any (fun kv => kv.1 == field))
  | .jarr xs => some (xs.any (fun x => match x with
      | .jstr s => s == field
      | _ => false))
  | .jstr s => some (strContainsSub s field)
  | _ => none

/- ===== ExampleGenerator (raml_processor.py lines 28-88) ===== -/

/-- `ExampleGenerator.example_values`: the fixed, ordered example table. -/
def example_values : List (String × JValue) :=
  [("ip", .jstr "192.168.88.1"),
   ("ipv6", .jstr "2001:db8::1"),
   ("interface", .jstr "ether1"),
   ("mac", .jstr "00:0C:29:45:67:89"),
   ("string", .jstr "example_value"),
   ("number", .jnum 1),
   ("boolean", .jbool true),
   ("comment", .jstr "Example comment"),
   ("username", .jstr "admin"),
   ("password", .jstr "password123"),
   ("port", .jnum 8080),
   ("vlan", .jnum 100)]

/-- `ExampleGenerator.get_example_value`: first key of the table that is a
substring of the lowered parameter name wins; otherwise exact lookup of the
declared type; otherwise the literal `"example_value"`. -/
def get_example_value (param_type param_name : String) : JValue :=
  match example_values.find? (fun kv => strContainsSub (strLower param_name) kv.1) with
  | some kv => kv.2
  | none => (example_values.lookup param_type).getD (.jstr "example_value")

/-- The `ApiExample` dataclass. -/
structure ApiExample where
  request : JValue
  response : JValue
  description : String

/-- `ApiExample.__dict__` as serialized into endpoint descriptors
(field declaration order). -/
def ApiExample.asDict (e : ApiExample) : JValue :=
  .jobj [("request", e.request), ("response", e.response),
         ("description", .jstr e.description)]

/-- `param_info.get('type', 'string')` restricted to the embedding's JSON
model: a missing key defaults to `"string"`; a non-dict `param_info` raises
`AttributeError` (modelled `none`).  A declared type that is itself not a
string is outside the embedding's success domain. -/
def infoDeclaredType : JValue → Option String
  | .jobj kvs =>
    match kvs.lookup "type" with
    | some (.jstr s) => some s
    | none => some "string"
    | some _ => none
  | _ => none

/-- The `request_body` loop of `generate_example_for_endpoint`. -/
def requestBody : JObj → Option JObj
  | [] => some []
  | (n, info) :: rest =>
    match infoDeclaredType info with
    | none => none
    | some ty =>
      match requestBody rest with
      | none => none
      | some rb => some ((n, get_example_value ty n) :: rb)

/-- `ExampleGenerator.generate_example_for_endpoint`. -/
def generate_example_for_endpoint (endpoint_path method : String)
    (params : JObj) : Option ApiExample :=
  match requestBody params with
  | none => none
  | some rb =>
    some ⟨.jobj [("method", .jstr method), ("path", .jstr endpoint_path),
                 ("body", .jobj rb)],
          .jobj [("status", .jnum 200),
                 ("body",
                   if strLower method == "get" then
                     .jobj [("items", .jarr [.jobj rb])]
                   else if strLower method == "post" then
                     .jobj [("result", .jstr "success"), ("ret", .jstr "done")]
                   else
                     .jobj [("status", .jstr "success")])],
          "Example " ++ method ++ " request to " ++ endpoint_path⟩

/-- Key lookup in a JSON object. -/
def jLookup : JValue → String → Option JValue
  | .jobj kvs, k => kvs.lookup k
  | _, _ => none

/- ===== ApiDocGenerator (raml_processor.py lines 90-162) ===== -/

/- A JSON serializer standing in for the external `json.dumps(v, indent=2)`
collaborator.  Its exact rendered text is relied on by no claim: the splitter
only ever reaches it through unreached branches of `generate_markdown`. -/
mutual

def jdumps : JValue → String
  | .jnull => "null"
  | .jbool true => "true"
  | .jbool false => "false"
  | .jnum n => toString n
  | .jstr s => "\"" ++ s ++ "\""
  | .jarr xs => "[" ++ jdumpsList xs ++ "]"
  | .jobj kvs => "\x7b" ++ jdumpsObj kvs ++ "\x7d"

def jdumpsList : List JValue → String
  | [] => ""
  | [x] => jdumps x
  | x :: y :: xs => jdumps x ++ ", " ++ jdumpsList (y :: xs)

def jdumpsObj : List (String × JValue) → String
  | [] => ""
  | [(k, v)] => "\"" ++ k ++ "\": " ++ jdumps v
  | (k, v) :: y :: xs => "\"" ++ k ++ "\": " ++ jdumps v ++ ", " ++ jdumpsObj (y :: xs)

end

/-- Python truthiness of a JSON value. -/
def pyTruthy : JValue → Bool
  | .jnull => false
  | .jbool b => b
  | .jnum n => n != 0
  | .jstr s => !s.isEmpty
  | .jarr xs => !xs.isEmpty
  | .jobj kvs => !kvs.isEmpty

/-- Python `str(v)` as interpolated by an f-string.  For containers it
stands in for the external repr; no claim depends on that case. -/
def pyStr : JValue → String
  | .jstr s => s
  | .jnum n => toString n
  | .jbool true => "True"
  | .jbool false => "False"
  | .jnull => "None"
  | .jarr xs => jdumps (.jarr xs)
  | .jobj kvs => jdumps (.jobj kvs)

/-- `v[k]` subscripting; raises (modelled `none`) when `v` is not a dict
holding `k`. -/
def jGetItem (v : JValue) (k : String) : Option JValue :=
  match v with
  | .jobj kvs => kvs.lookup k
  | _ => none

/-- `ApiDocGenerator.validation_rules`: the fixed three-entry rule table,
each entry serialized in `ValidationRule` field order. -/
def validation_rules : List (String × JValue) :=
  [("ip", .jobj
     [("type", .jstr "ip"),
      ("pattern", .jstr "^(\\d\x7b1,3\x7d\\.)\x7b3\x7d\\d\x7b1,3\x7d(/\\d\x7b1,2\x7d)?$"),
      ("description", .jstr "IPv4 address with optional CIDR"),
      ("example", .jstr "192.168.88.1")]),
   ("mac", .jobj
     [("type", .jstr "mac"),
      ("pattern", .jstr "^([0-9A-Fa-f]\x7b2\x7d[:-])\x7b5\x7d([0-9A-Fa-f]\x7b2\x7d)$"),
      ("description", .jstr "MAC address in XX:XX:XX:XX:XX:XX format"),
      ("example", .jstr "00:0C:29:45:67:89")]),
   ("interface", .jobj
     [("type", .jstr "interface"),
      ("pattern", .jstr "^[a-zA-Z0-9-_]+$"),
      ("description", .jstr "Interface name"),
      ("example", .jstr "ether1")])]

/-- The parameter-table loop of `generate_markdown`. -/
def renderParams : JObj → Option String
  | [] => some ""
  | (param, pd) :: rest =>
    match pd with
    | .jobj kvs =>
      let ty := pyStr ((kvs.lookup "type").getD (.jstr ""))
      let req := if pyTruthy ((kvs.lookup "required").getD (.jbool false))
                 then "Yes" else "No"
      let desc := pyStr ((kvs.lookup "description").getD (.jstr ""))
      match renderParams rest with
      | none => none
      | some r =>
        some (("| " ++ param ++ " | " ++ ty ++ " | " ++ req ++ " | "
               ++ desc ++ " |\n") ++ r)
    | _ => none

/-- One `### <METHOD>` section of `generate_markdown`. -/
def renderMethod (method : String) (details : JValue) : Option String :=
  let head := "### " ++ strUpper method ++ "\n" ++ "#### Parameters\n"
    ++ "| Name | Type | Required | Description |\n"
    ++ "|------|------|----------|-------------|\n"
  match pyIn "parameters" details with
  | none => none
  | some hasP =>
    let paramsPart : Option String :=
      if hasP then
        match jGetItem details "parameters" with
        | some (.jobj ps) => renderParams ps
        | _ => none
      else some ""
    match paramsPart with
    | none => none
    | some pp =>
      match pyIn "examples" details with
      | none => none
      | some hasEx =>
        let exPart : Option String :=
          if hasEx then
            match jGetItem details "examples" with
            | some v => some ("\n#### Examples\n" ++ "```json\n" ++ jdumps v
                              ++ "\n```\n")
            | none => none
          else some ""
        match exPart with
        | none => none
        | some ep =>
          match pyIn "validation" details with
          | none => none
          | some hasVal =>
            let valPart : Option String :=
              if hasVal then
                match jGetItem details "validation" with
                | some v => some ("\n#### Validation Rules\n" ++ "```json\n"
                                  ++ jdumps v ++ "\n```\n")
                | none => none
              else some ""
            match valPart with
            | none => none
            | some vp => some (head ++ pp ++ ep ++ vp)

/-- The `for method, details in endpoint_data.get('endpoints', {}).items()`
loop of `generate_markdown`. -/
def renderMethods : JObj → Option String
  | [] => some ""
  | (m, d) :: rest =>
    match renderMethod m d with
    | none => none
    | some s =>
      match renderMethods rest with
      | none => none
      | some r => some (s ++ r)

/-- `ApiDocGenerator.generate_markdown`, with the wall-clock read
`datetime.now().strftime(...)` supplied as the timestamp `t`. -/
def generate_markdown (endpoint_data : JObj) (path t : String) : Option String :=
  let md1 := "# " ++ path ++ " API Documentation\n"
    ++ "Generated on: " ++ t ++ "\n"
  let md2 := md1 ++ (match endpoint_data.lookup "description" with
    | some d => "## Description\n" ++ pyStr d ++ "\n"
    | none => "")
  let md3 := md2 ++ "## Endpoints\n"
  match endpoint_data.lookup "endpoints" with
  | none => some md3
  | some (.jobj eps) =>
    match renderMethods eps with
    | none => none
    | some r => some (md3 ++ r)
  | some _ => none

/-- The Markdown text `generate_markdown` produces for every enriched
endpoint descriptor: title, timestamp line, `## Endpoints` heading and
nothing else. -/
def mdTemplate (path t : String) : String :=
  "# " ++ path ++ " API Documentation\n" ++ "Generated on: " ++ t ++ "\n"
    ++ "## Endpoints\n"

/- ===== EnhancedRamlSplitter.process_endpoint helpers
   (raml_processor.py lines 235-274) ===== -/

/-- `data.get('method', 'GET')`; a non-string method later hits
`method.lower()` and raises, hence `none`. -/
def getMethod (data : JObj) : Option String :=
  match data.lookup "method" with
  | none => some "GET"
  | some (.jstr s) => some s
  | some _ => none

/-- `data.get('parameters', {})`; `.items()` on a non-dict raises. -/
def getParams (data : JObj) : Option JObj :=
  match data.lookup "parameters" with
  | none => some []
  | some (.jobj kvs) => some kvs
  | some _ => none

/-- The loop body of `EnhancedRamlSplitter.get_validation_rules`. -/
def rulesLoop : JObj → Option JObj
  | [] => some []
  | (param, info) :: rest =>
    match infoDeclaredType info with
    | none => none
    | some ty =>
      match rulesLoop rest with
      | none => none
      | some r =>
        match validation_rules.lookup ty with
        | some rule => some ((param, rule) :: r)
        | none => some r

/-- `EnhancedRamlSplitter.get_validation_rules`. -/
def get_validation_rules (data : JObj) : Option JObj :=
  match data.lookup "parameters" with
  | none => some []
  | some (.jobj ps) => rulesLoop ps
  | some _ => none

/-- The enrichment part of `EnhancedRamlSplitter.process_endpoint`: the
`enhanced_data` mapping serialized to `<family>/<endpoint>.json`.  `none`
models an exception escaping `process_endpoint` (aborting the whole run). -/
def process_endpoint (endpoint : String) (data : JObj) : Option JObj :=
  match getMethod data with
  | none => none
  | some method =>
    match getParams data with
    | none => none
    | some params =>
      match generate_example_for_endpoint endpoint method params with
      | none => none
      | some ex =>
        match get_validation_rules data with
        | none => none
        | some rules =>
          some [("endpoint", .jstr endpoint), ("data", .jobj data),
                ("examples", ex.asDict), ("validation", .jobj rules)]

/-- File name `f"{endpoint.strip('/')}.json"` of an endpoint descriptor,
relative to its family directory (raml_processor.py line 255). -/
def endpointJsonFileName (endpoint : String) : String :=
  pyStrip endpoint ++ ".json"

/-- Directory name of a family, `family.strip('/')`
(raml_processor.py line 211). -/
def familyDirName (family : String) : String :=
  pyStrip family


/- ===== Filesystem model ===== -/

/-- Content of one output file.  A `.json` file either holds the value its
text parses to (`jsonOk`, written by `json.dump` of an in-memory value and
hence valid JSON) or fails to parse (`jsonBad`, carrying the decoder's
message).  `md` holds plain text. -/
inductive FileData where
  | jsonOk (v : JValue)
  | jsonBad (msg : String)
  | md (s : String)

/-- The output tree, rooted at the configurable output root (default
`api/`).  Paths are segment lists relative to the root; the root itself is
implicit.  List order models creation order, which also serves as the
deterministic stand-in for directory-scan order. -/
structure FS where
  dirs : List FPath
  files : List (FPath × FileData)

/-- Blind overwrite-on-write: replace the file at `p` if present, else
append it. -/
def writeFile {α : Type} (files : List (FPath × α)) (p : FPath) (d : α) :
    List (FPath × α) :=
  if files.any (fun f => f.1 == p) then
    files.map (fun f => if f.1 == p then (p, d) else f)
  else files ++ [(p, d)]

/-- `mkdir(exist_ok=True)`. -/
def mkdirp (dirs : List FPath) (p : FPath) : List FPath :=
  if dirs.any (fun d => d == p) then dirs else dirs ++ [p]

/-- `mkdir(parents=True, exist_ok=True)`: create every ancestor as well,
outermost first. -/
def mkdirParents (dirs : List FPath) (p : FPath) : List FPath :=
  (List.range p.length).foldl (fun ds i => mkdirp ds (p.take (i + 1))) dirs

/-- The parent directory of `p` exists: the implicit root always does, any
other directory only once created. -/
def dirExists (dirs : List FPath) (p : FPath) : Bool :=
  p.isEmpty || dirs.any (fun d => d == p)

/-- Split a character list at every `/`. -/
def splitSegsAux (cur : List Char) : List Char → List String
  | [] => [⟨cur.reverse⟩]
  | c :: rest =>
    if c == '/' then (⟨cur.reverse⟩ : String) :: splitSegsAux [] rest
    else splitSegsAux (c :: cur) rest

/-- `Path` joining with a string that may itself contain separators:
`pathlib` treats every `/` inside the string as a path separator and
collapses empty segments. -/
def pySplitPath (s : String) : FPath :=
  (splitSegsAux [] s.toList).filter (fun seg => seg != "")

/-- `open(p, 'w')` followed by a write of the whole content: raises
`FileNotFoundError` (modelled `none`) when the parent directory of `p` does
not exist — which happens exactly when a stripped endpoint name carries an
embedded `/` naming a directory the splitter never created. -/
def fsOpenWrite (fs : FS) (p : FPath) (d : FileData) : Option FS :=
  if dirExists fs.dirs p.dropLast then
    some ⟨fs.dirs, writeFile fs.files p d⟩
  else none

/-- `Path.exists()`: true for the root, any created directory, or any file. -/
def fsExists (fs : FS) (p : FPath) : Bool :=
  p.isEmpty || fs.dirs.any (fun d => d == p) || fs.files.any (fun f => f.1 == p)

/-- `glob('*/')` filtered by `is_dir()` and the hidden-name check: the names
of the immediate, non-hidden subdirectories, in creation order. -/
def immediateSubdirs : List FPath → List String
  | [] => []
  | [n] :: rest =>
    if strStartsWith n "." then immediateSubdirs rest
    else n :: immediateSubdirs rest
  | _ :: rest => immediateSubdirs rest

/-- Read a file's raw data. -/
def readFile (fs : FS) (p : FPath) : Option FileData :=
  match fs.files.find? (fun f => f.1 == p) with
  | some f => some f.2
  | none => none

/-- `open(p); json.load(f)` as used by the validator: a missing file or a
parse failure is an exception message. -/
def readJsonFile (fs : FS) (p : FPath) : Except String JValue :=
  match readFile fs p with
  | some (.jsonOk v) => .ok v
  | some (.jsonBad m) => .error m
  | some (.md _) => .error "Expecting value: line 1 column 1 (char 0)"
  | none => .error ("[Errno 2] No such file or directory: '" ++ pathStr p ++ "'")

/-- Markdown text of the file at `p`, if it is one. -/
def fileMd (fs : FS) (p : FPath) : Option String :=
  match readFile fs p with
  | some (.md s) => some s
  | _ => none

/-- JSON value of the file at `p`, if it parses. -/
def fileJson (fs : FS) (p : FPath) : Option JValue :=
  match readFile fs p with
  | some (.jsonOk v) => some v
  | _ => none

/- ===== EnhancedRamlSplitter (raml_processor.py lines 164-301) ===== -/

/-- The `for endpoint, data in endpoints.items()` loop of `process_family`:
writes `<family>/<endpoint>.json` and `<family>/docs/<endpoint>.md` per
dict-valued endpoint and collects the enriched descriptors for the family
index.  `none` models an exception aborting the run: a failure inside the
enrichment, or `open()` raising `FileNotFoundError` because the stripped
endpoint name has an embedded `/` whose directory was never created. -/
def processEndpoints (t : String) (famPath : FPath) :
    JObj → FS → Option (FS × List JValue)
  | [], fs => some (fs, [])
  | (ep, d) :: rest, fs =>
    match d with
    | .jobj kvs =>
      match process_endpoint ep kvs with
      | none => none
      | some e =>
        match fsOpenWrite fs (famPath ++ pySplitPath (endpointJsonFileName ep))
            (.jsonOk (.jobj e)) with
        | none => none
        | some fs1 =>
          match generate_markdown e ep t with
          | none => none
          | some mdText =>
            match fsOpenWrite fs1
                (famPath ++ ["docs"] ++ pySplitPath (pyStrip ep ++ ".md"))
                (.md mdText) with
            | none => none
            | some fs2 =>
              match processEndpoints t famPath rest fs2 with
              | none => none
              | some (fs3, idx) => some (fs3, .jobj e :: idx)
    | _ => processEndpoints t famPath rest fs

/-- `EnhancedRamlSplitter.process_family`: process the endpoints, then write
`<family>/_index.json` (the family directory always exists by then, created
by `split_raml`). -/
def process_family (t family : String) (famPath : FPath) (eps : JObj)
    (fs : FS) : Option FS :=
  match processEndpoints t famPath eps fs with
  | none => none
  | some (fs1, idx) =>
    fsOpenWrite fs1 (famPath ++ ["_index.json"])
      (.jsonOk (.jobj [("family", .jstr family), ("endpoints", .jarr idx),
                       ("examples", .jarr [])]))

/-- `EnhancedRamlSplitter.split_raml`: for every top-level key starting with
`/`, create the family directory (with its `docs` subdirectory) and process
the family. -/
def split_raml (t : String) : JObj → FS → Option FS
  | [], fs => some fs
  | (family, eps) :: rest, fs =>
    if strStartsWith family "/" then
      let famPath := pySplitPath (familyDirName family)
      let fs1 : FS := ⟨mkdirp (mkdirParents fs.dirs famPath)
        (famPath ++ ["docs"]), fs.files⟩
      match eps with
      | .jobj epList =>
        match process_family t family famPath epList fs1 with
        | none => none
        | some fs2 => split_raml t rest fs2
      | _ => none
    else split_raml t rest fs

/-- The family-collection loop of `generate_index`: re-read every immediate
subdirectory's `_index.json` from disk.  A read that parses is collected; a
file that no longer parses raises (the splitter has no handler here), and a
missing file is skipped. -/
def collectFamilies (fs : FS) : List String → Option (List JValue)
  | [] => some []
  | d :: rest =>
    match readFile fs [d, "_index.json"] with
    | none => collectFamilies fs rest
    | some (.jsonOk v) =>
      match collectFamilies fs rest with
      | none => none
      | some l => some (v :: l)
    | some _ => none

/-- `EnhancedRamlSplitter.generate_index`: aggregate the family indexes and
write `<root>/index.json` with the current timestamp. -/
def generate_index (t : String) (fs : FS) : Option FS :=
  match collectFamilies fs (immediateSubdirs fs.dirs) with
  | none => none
  | some fams =>
    fsOpenWrite fs ["index.json"]
      (.jsonOk (.jobj [("generated_at", .jstr t), ("families", .jarr fams)]))

/-- `EnhancedRamlSplitter.process_raml` on an already-parsed document:
create the directory structure, split, then build the root index.  All
wall-clock reads of the run are modelled by the single timestamp `t`. -/
def runSplitter (doc : JObj) (t : String) : Option FS :=
  let fs0 : FS := ⟨mkdirp (mkdirp [] ["docs"]) ["examples"], []⟩
  match split_raml t doc fs0 with
  | none => none
  | some fs1 => generate_index t fs1

/- ===== RamlValidator (raml_validator.py) ===== -/

/-- Message of the `TypeError` raised by `field in data` on a scalar. -/
def pyInErrMsg (v : JValue) : String :=
  "argument of type '" ++ pyTypeName v ++ "' is not iterable"

/-- The `for field in required_fields` loops of the validator: accumulated
error messages plus whether the loop finished without raising.  Errors
appended before an exception are kept, as with the enclosing
`try`/`except`. -/
def fieldErrs (mk : String → String) (v : JValue) : List String → List String × Bool
  | [] => ([], true)
  | f :: rest =>
    match pyIn f v with
    | none => ([], false)
    | some b =>
      match fieldErrs mk v rest with
      | (es, ok) => ((if b then [] else [mk f]) ++ es, ok)

/-- `RamlValidator._validate_index_file`, wrapped in `validate_json_files`'
per-file `except` handler. -/
def checkIndexFile (v : JValue) (p : FPath) : List String :=
  match fieldErrs (fun f => "Missing required field '" ++ f ++ "' in " ++ pathStr p) v
      ["family", "endpoints"] with
  | (es, ok) =>
    if ok then es
    else es ++ ["Error processing " ++ pathStr p ++ ": " ++ pyInErrMsg v]

/-- `RamlValidator._validate_endpoint_file`, wrapped in the per-file
`except` handler.  When the file has an `examples` key the code calls
`self._validate_examples(...)`; no such method exists on `RamlValidator`
(only `validate_examples` does), so attribute lookup raises
`AttributeError`, which the handler converts into one error entry. -/
def checkEndpointFile (v : JValue) (p : FPath) : List String :=
  match fieldErrs (fun f => "Missing required field '" ++ f ++ "' in " ++ pathStr p) v
      ["endpoint", "data"] with
  | (es, ok) =>
    if ok then
      match pyIn "examples" v with
      | some false => es
      | some true => es ++ ["Error processing " ++ pathStr p
          ++ ": 'RamlValidator' object has no attribute '_validate_examples'"]
      | none => es ++ ["Error processing " ++ pathStr p ++ ": " ++ pyInErrMsg v]
    else es ++ ["Error processing " ++ pathStr p ++ ": " ++ pyInErrMsg v]

/-- One iteration of the `validate_json_files` loop. -/
def checkJsonFile (p : FPath) (fd : FileData) : List String :=
  match fd with
  | .jsonBad m => ["Invalid JSON in " ++ pathStr p ++ ": " ++ m]
  | .md _ => ["Invalid JSON in " ++ pathStr p
      ++ ": Expecting value: line 1 column 1 (char 0)"]
  | .jsonOk v =>
    if (p.getLastD "") == "_index.json" then checkIndexFile v p
    else checkEndpointFile v p

/-- Concatenation of per-element findings, mirroring a `for` loop that
appends to a shared list. -/
def concatMapList {α : Type} (f : α → List String) : List α → List String
  | [] => []
  | x :: xs => f x ++ concatMapList f xs

/-- `RamlValidator.validate_json_files` over an explicit file list. -/
def validateJsonList (files : List (FPath × FileData)) : List String :=
  concatMapList (fun f => checkJsonFile f.1 f.2) files

/-- `RamlValidator.validate_json_files`: every `*.json` file found anywhere
under the root, in scan order. -/
def validate_json_files (fs : FS) : List String :=
  validateJsonList (fs.files.filter (fun f => strEndsWith (f.1.getLastD "") ".json"))

/-- `RamlValidator.validate_directory_structure`. -/
def validate_directory_structure (fs : FS) : List String :=
  concatMapList (fun d => if fsExists fs [d] then []
      else ["Missing required directory: " ++ d]) ["docs", "examples"]
  ++ concatMapList (fun n =>
      (if fsExists fs [n, "docs"] then [] else ["Missing docs directory in " ++ n])
      ++ (if fsExists fs [n, "_index.json"] then []
          else ["Missing _index.json in " ++ n]))
    (immediateSubdirs fs.dirs)

/-- `RamlValidator.validate_index_files`. -/
def validate_index_files (fs : FS) : List String :=
  if !fsExists fs ["index.json"] then ["Missing main index.json"]
  else
    match readJsonFile fs ["index.json"] with
    | .error m => ["Error validating main index.json: " ++ m]
    | .ok v =>
      match pyIn "families" v with
      | some true => []
      | some false => ["Missing 'families' in main index.json"]
      | none => ["Error validating main index.json: " ++ pyInErrMsg v]

/-- One iteration of the `validate_markdown_files` loop: `(errors,
warnings)` for one file. -/
def checkMdFile (p : FPath) (fd : FileData) : List String × List String :=
  match fd with
  | .md s =>
    ([], concatMapList (fun sec =>
        if strContainsSub s sec then []
        else ["Missing section '" ++ sec ++ "' in " ++ pathStr p])
      ["# ", "## Description", "## Endpoints"])
  | _ => (["Error reading markdown file " ++ pathStr p ++ ": read failure"], [])

/-- `RamlValidator.validate_markdown_files` over every `*.md` file under the
root: accumulated `(errors, warnings)`. -/
def validate_markdown_files (fs : FS) : List String × List String :=
  (fs.files.filter (fun f => strEndsWith (f.1.getLastD "") ".md")).foldr
    (fun f acc =>
      match checkMdFile f.1 f.2 with
      | (es, ws) => (es ++ acc.1, ws ++ acc.2))
    ([], [])

/-- One iteration of the `validate_examples` loop. -/
def checkExampleFile (p : FPath) (fd : FileData) : List String :=
  match fd with
  | .jsonOk v =>
    match fieldErrs (fun f => "Missing required field '" ++ f ++ "' in example "
        ++ pathStr p) v ["request", "response"] with
    | (es, ok) =>
      if ok then es
      else es ++ ["Error validating example " ++ pathStr p ++ ": " ++ pyInErrMsg v]
  | .jsonBad m => ["Error validating example " ++ pathStr p ++ ": " ++ m]
  | .md _ => ["Error validating example " ++ pathStr p
      ++ ": Expecting value: line 1 column 1 (char 0)"]

/-- `RamlValidator.validate_examples` over an explicit file list. -/
def validateExamplesList (files : List (FPath × FileData)) : List String :=
  concatMapList (fun f => checkExampleFile f.1 f.2) files

/-- `RamlValidator.validate_examples`: every `*.json` file directly inside
`examples/`. -/
def validate_examples (fs : FS) : List String :=
  validateExamplesList (fs.files.filter (fun f =>
    match f.1 with
    | [a, n] => a == "examples" && strEndsWith n ".json"
    | _ => false))

/-- The `for family in main_index.get('families', [])` loop of
`validate_references`: `Path / family` on a non-string element raises
`TypeError`, aborting the loop with one catch-all entry (errors appended
earlier are kept). -/
def refLoop (fs : FS) : List JValue → List String
  | [] => []
  | .jstr s :: rest =>
    (if fsExists fs (pySplitPath s) then []
     else ["Referenced family directory does not exist: " ++ s])
    ++ refLoop fs rest
  | v :: _ =>
    ["Error validating cross-references: unsupported operand type(s) for /: 'PosixPath' and '"
     ++ pyTypeName v ++ "'"]

/-- `RamlValidator.validate_references`. -/
def validate_references (fs : FS) : List String :=
  match readJsonFile fs ["index.json"] with
  | .error m => ["Error validating cross-references: " ++ m]
  | .ok v =>
    match v with
    | .jobj kvs =>
      match (kvs.lookup "families").getD (.jarr []) with
      | .jarr xs => refLoop fs xs
      | .jobj fkvs => refLoop fs (fkvs.map (fun kv => .jstr kv.1))
      | .jstr s => refLoop fs (s.toList.map (fun c => .jstr ⟨[c]⟩))
      | fv => ["Error validating cross-references: '" ++ pyTypeName fv
          ++ "' object is not iterable"]
    | _ => ["Error validating cross-references: '" ++ pyTypeName v
        ++ "' object has no attribute 'get'"]

/-- `RamlValidator.validate_all`: the accumulated `errors` list, phases in
call order. -/
def validate_all_errors (fs : FS) : List String :=
  validate_directory_structure fs
  ++ validate_index_files fs
  ++ validate_json_files fs
  ++ (validate_markdown_files fs).1
  ++ validate_examples fs
  ++ validate_references fs

/-- `RamlValidator.validate_all`: the accumulated `warnings` list. -/
def validate_all_warnings (fs : FS) : List String :=
  (validate_markdown_files fs).2

/-- `RamlValidator.validate_all`'s return value: `len(self.errors) == 0`. -/
def validate_all (fs : FS) : Bool :=
  (validate_all_errors fs).isEmpty

/- ===== Timestamp-skeleton of a splitter run (used to state how two runs
   of the splitter differ).  `renderItem` makes the timestamp placement
   explicit: a `jsonF` file's bytes are timestamp-independent, an `mdF`
   file is the Markdown template with the run's timestamp substituted, and
   an `indexF` file is the root index with the run's timestamp as
   `generated_at`. ===== -/

/-- One output file with its timestamp dependence made explicit. -/
inductive OutItem where
  | jsonF (v : JValue)
  | mdF (ep : String)
  | indexF (fams : List JValue)

/-- Instantiate a skeleton file at timestamp `t`. -/
def renderItem (t : String) : OutItem → FileData
  | .jsonF v => .jsonOk v
  | .mdF ep => .md (mdTemplate ep t)
  | .indexF fams =>
    .jsonOk (.jobj [("generated_at", .jstr t), ("families", .jarr fams)])

/-- A splitter output tree with its timestamp dependence made explicit. -/
structure SkelFS where
  dirs : List FPath
  files : List (FPath × OutItem)

/-- Instantiate a skeleton tree at timestamp `t`. -/
def renderFS (t : String) (s : SkelFS) : FS :=
  ⟨s.dirs, s.files.map (fun f => (f.1, renderItem t f.2))⟩

/-- Timestamp-free counterpart of `fsOpenWrite`. -/
def skelOpenWrite (s : SkelFS) (p : FPath) (it : OutItem) : Option SkelFS :=
  if dirExists s.dirs p.dropLast then
    some ⟨s.dirs, writeFile s.files p it⟩
  else none

/-- Timestamp-free counterpart of `processEndpoints`. -/
def skelProcessEndpoints (famPath : FPath) :
    JObj → SkelFS → Option (SkelFS × List JValue)
  | [], s => some (s, [])
  | (ep, d) :: rest, s =>
    match d with
    | .jobj kvs =>
      match process_endpoint ep kvs with
      | none => none
      | some e =>
        match skelOpenWrite s (famPath ++ pySplitPath (endpointJsonFileName ep))
            (.jsonF (.jobj e)) with
        | none => none
        | some s1 =>
          match skelOpenWrite s1
              (famPath ++ ["docs"] ++ pySplitPath (pyStrip ep ++ ".md"))
              (.mdF ep) with
          | none => none
          | some s2 =>
            match skelProcessEndpoints famPath rest s2 with
            | none => none
            | some (s3, idx) => some (s3, .jobj e :: idx)
    | _ => skelProcessEndpoints famPath rest s

/-- Timestamp-free counterpart of `process_family`. -/
def skelProcessFamily (family : String) (famPath : FPath) (eps : JObj)
    (s : SkelFS) : Option SkelFS :=
  match skelProcessEndpoints famPath eps s with
  | none => none
  | some (s1, idx) =>
    skelOpenWrite s1 (famPath ++ ["_index.json"])
      (.jsonF (.jobj [("family", .jstr family), ("endpoints", .jarr idx),
                      ("examples", .jarr [])]))

/-- Timestamp-free counterpart of `split_raml`. -/
def skelSplitRaml : JObj → SkelFS → Option SkelFS
  | [], s => some s
  | (family, eps) :: rest, s =>
    if strStartsWith family "/" then
      let famPath := pySplitPath (familyDirName family)
      let s1 : SkelFS := ⟨mkdirp (mkdirParents s.dirs famPath)
        (famPath ++ ["docs"]), s.files⟩
      match eps with
      | .jobj epList =>
        match skelProcessFamily family famPath epList s1 with
        | none => none
        | some s2 => skelSplitRaml rest s2
      | _ => none
    else skelSplitRaml rest s

/-- Timestamp-free counterpart of `collectFamilies`. -/
def skelCollectFamilies (s : SkelFS) : List String → Option (List JValue)
  | [] => some []
  | d :: rest =>
    match s.files.find? (fun f => f.1 == [d, "_index.json"]) with
    | none => skelCollectFamilies s rest
    | some (_, .jsonF v) =>
      match skelCollectFamilies s rest with
      | none => none
      | some l => some (v :: l)
    | some _ => none

/-- Timestamp-free counterpart of `generate_index`. -/
def skelGenerateIndex (s : SkelFS) : Option SkelFS :=
  match skelCollectFamilies s (immediateSubdirs s.dirs) with
  | none => none
  | some fams => skelOpenWrite s ["index.json"] (.indexF fams)

/-- Timestamp-free counterpart of `runSplitter`. -/
def skelRun (doc : JObj) : Option SkelFS :=
  let s0 : SkelFS := ⟨mkdirp (mkdirp [] ["docs"]) ["examples"], []⟩
  match skelSplitRaml doc s0 with
  | none => none
  | some s1 => skelGenerateIndex s1

/-- The item is not a root index. -/
def notIndexF : OutItem → Bool
  | .indexF _ => false
  | _ => true

/-- No file of the skeleton is a root index yet (true throughout the split
phase, before `generate_index` runs). -/
def noIndexItem (s : SkelFS) : Bool :=
  s.files.all (fun f => notIndexF f.2)

/- ===== Concrete inputs used by counterexamples and witnesses ===== -/

/-- All distinct strings. -/
def distinctStrings : List String → Bool
  | [] => true
  | x :: xs => !(xs.contains x) && distinctStrings xs

/-- One well-formed parameter declaration: a mapping whose `type`, if
present, is a string. -/
def wfParam : String × JValue → Bool
  | (_, .jobj kvs) =>
    (match kvs.lookup "type" with
     | some (.jstr _) => true
     | none => true
     | some _ => false)
  | _ => false

/-- One well-formed endpoint entry: a sub-path key mapping to a dict with a
string `description`, an optional string `method`, and well-formed
parameters; its stripped name is a plain, non-empty file-name component. -/
def wfEndpoint : String × JValue → Bool
  | (ep, .jobj kvs) =>
    strStartsWith ep "/"
    && !(pyStrip ep).isEmpty
    && !(strContainsSub (pyStrip ep) "/")
    && (match kvs.lookup "description" with
        | some (.jstr _) => true
        | _ => false)
    && (match kvs.lookup "method" with
        | some (.jstr _) => true
        | none => true
        | some _ => false)
    && (match kvs.lookup "parameters" with
        | some (.jobj ps) => ps.all wfParam
        | none => true
        | some _ => false)
  | _ => false

/-- One well-formed family entry. -/
def wfFamily : String × JValue → Bool
  | (family, .jobj eps) =>
    strStartsWith family "/"
    && !(pyStrip family).isEmpty
    && !(strContainsSub (pyStrip family) "/")
    && pyStrip family != "docs"
    && pyStrip family != "examples"
    && eps.all wfEndpoint
    && distinctStrings (eps.map (fun e => pyStrip e.1))
  | _ => false

/-- A well-formed input document in the sense of the round-trip property:
every top-level key is a path family holding endpoint mappings, every
endpoint carries a `description` field, derived file names are plain and
collision-free, and no family shadows the reserved `docs`/`examples`
directories. -/
def wellFormedDoc (doc : JObj) : Bool :=
  doc.all wfFamily && distinctStrings (doc.map (fun f => pyStrip f.1))

/-- A small well-formed schema document: one family, one endpoint with a
description and one typed parameter. -/
def sampleDoc : JObj :=
  [("/interface", .jobj
     [("/ethernet", .jobj
        [("description", .jstr "Ethernet interface configuration"),
         ("method", .jstr "GET"),
         ("parameters", .jobj
           [("address", .jobj
              [("type", .jstr "ip"),
               ("required", .jbool true),
               ("description", .jstr "IP address")])])])])]

/-- The splitter's output for `sampleDoc` at one run's timestamp. -/
def sampleFS : FS :=
  (runSplitter sampleDoc "2024-01-01 10:00:00").getD ⟨[], []⟩

/-- The splitter's output for `sampleDoc` at a later run's timestamp. -/
def sampleFS2 : FS :=
  (runSplitter sampleDoc "2024-01-02 10:00:00").getD ⟨[], []⟩

/-- A document whose endpoint key has an embedded slash. -/
def nestedDoc : JObj :=
  [("/interface", .jobj [("/ethernet/{id}", .jobj [("method", .jstr "GET")])])]

/-- A validation root holding exactly `examples/foo.json` with both required
keys. -/
def exampleOkFS : FS :=
  ⟨[["examples"]],
   [(["examples", "foo.json"],
     .jsonOk (.jobj [("request", .jobj []), ("response", .jobj [])]))]⟩

/-- The same root with the `response` key removed. -/
def exampleNoRespFS : FS :=
  ⟨[["examples"]],
   [(["examples", "foo.json"], .jsonOk (.jobj [("request", .jobj [])]))]⟩

/- ===== Helper lemmas ===== -/

/-- `find?` returns the first element satisfying the predicate. -/
theorem listFindFirst {α : Type} (p : α → Bool) (pre : List α) (x : α)
    (post : List α) (hpre : ∀ y ∈ pre, p y = false) (hx : p x = true) :
    (pre ++ x :: post).find? p = some x := by
  induction pre with
  | nil =>
    simp only [List.nil_append]
    exact List.find?_cons_of_pos _ hx
  | cons a tl ih =>
    have ha : p a = false := hpre a (List.mem_cons_self a tl)
    rw [List.cons_append, List.find?_cons_of_neg _ (by simp [ha])]
    exact ih (fun y hy => hpre y (List.mem_cons_of_mem a hy))

theorem containsSub_nil (l : List Char) : containsSub l [] = true := by
  cases l <;> simp [containsSub, List.isPrefixOf]

theorem isPrefixOf_extend (n h l2 : List Char) (hp : n.isPrefixOf h = true) :
    n.isPrefixOf (h ++ l2) = true := by
  rw [List.isPrefixOf_iff_prefix] at hp ⊢
  exact hp.trans (List.prefix_append h l2)

/-- A substring of the left part is a substring of the whole. -/
theorem containsSub_append_left (l1 l2 n : List Char)
    (h : containsSub l1 n = true) : containsSub (l1 ++ l2) n = true := by
  induction l1 with
  | nil =>
    have hn : n = [] := by
      simpa [containsSub, List.isEmpty_iff] using h
    subst hn
    exact containsSub_nil l2
  | cons c t ih =>
    simp only [containsSub, Bool.or_eq_true] at h
    rcases h with h | h
    · simp only [List.cons_append, containsSub, Bool.or_eq_true]
      left
      exact isPrefixOf_extend n (c :: t) l2 h
    · simp only [List.cons_append, containsSub, Bool.or_eq_true]
      right
      exact ih h

/-- A substring of the right part is a substring of the whole. -/
theorem containsSub_append_right (l1 l2 n : List Char)
    (h : containsSub l2 n = true) : containsSub (l1 ++ l2) n = true := by
  induction l1 with
  | nil => simpa using h
  | cons c tl ih => simp [containsSub, ih]

/-- A list contains its own prefix. -/
theorem containsSub_of_isPrefixOf (l n : List Char)
    (h : n.isPrefixOf l = true) : containsSub l n = true := by
  cases l with
  | nil =>
    cases n with
    | nil => rfl
    | cons c tl => simp [List.isPrefixOf] at h
  | cons c tl => simp [containsSub, h]

theorem strAppend_toList (s u : String) : (s ++ u).toList = s.toList ++ u.toList := by
  cases s with
  | mk d1 =>
    cases u with
    | mk d2 => rfl

/-- String version of `containsSub_append_left`. -/
theorem strContainsSub_append_left (s u n : String)
    (h : strContainsSub s n = true) : strContainsSub (s ++ u) n = true := by
  unfold strContainsSub at h ⊢
  rw [strAppend_toList]
  exact containsSub_append_left _ _ _ h

/-- String version of `containsSub_append_right`. -/
theorem strContainsSub_append_right (s u n : String)
    (h : strContainsSub u n = true) : strContainsSub (s ++ u) n = true := by
  unfold strContainsSub at h ⊢
  rw [strAppend_toList]
  exact containsSub_append_right _ _ _ h

/-- A string starting with `n` contains `n`. -/
theorem strContainsSub_prefix (n u : String) :
    strContainsSub (n ++ u) n = true := by
  unfold strContainsSub
  rw [strAppend_toList]
  exact containsSub_of_isPrefixOf _ _
    (by rw [List.isPrefixOf_iff_prefix]; exact List.prefix_append _ _)

theorem strAppend_empty (s : String) : s ++ "" = s := by
  cases s with
  | mk d => show String.mk (d ++ []) = String.mk d; rw [List.append_nil]

theorem strAppend_assoc (a b c : String) : (a ++ b) ++ c = a ++ (b ++ c) := by
  cases a with
  | mk d1 =>
    cases b with
    | mk d2 =>
      cases c with
      | mk d3 =>
        show String.mk ((d1 ++ d2) ++ d3) = String.mk (d1 ++ (d2 ++ d3))
        rw [List.append_assoc]

/-- The shape of every enriched descriptor `process_endpoint` emits. -/
theorem process_endpoint_shape (endpoint : String) (data : JObj) (e : JObj)
    (h : process_endpoint endpoint data = some e) :
    ∃ ex rules, e = [("endpoint", .jstr endpoint), ("data", .jobj data),
                     ("examples", ex), ("validation", .jobj rules)] := by
  cases hm : getMethod data with
  | none => simp [process_endpoint, hm] at h
  | some method =>
    cases hp : getParams data with
    | none => simp [process_endpoint, hm, hp] at h
    | some params =>
      cases hg : generate_example_for_endpoint endpoint method params with
      | none => simp [process_endpoint, hm, hp, hg] at h
      | some ex =>
        cases hr : get_validation_rules data with
        | none => simp [process_endpoint, hm, hp, hg, hr] at h
        | some rules =>
          simp only [process_endpoint, hm, hp, hg, hr, Option.some.injEq] at h
          exact ⟨ex.asDict, rules, h.symm⟩

/-- On a descriptor with exactly the four enrichment keys,
`generate_markdown` emits exactly the template: no `description` key and no
`endpoints` key exist, so the optional section and the method loop emit
nothing. -/
theorem generate_markdown_enhanced (a b c d : JValue) (ep t : String) :
    generate_markdown [("endpoint", a), ("data", b), ("examples", c),
      ("validation", d)] ep t = some (mdTemplate ep t) := by
  have h1 : generate_markdown [("endpoint", a), ("data", b), ("examples", c),
      ("validation", d)] ep t
      = some ((("# " ++ ep ++ " API Documentation\n" ++ "Generated on: "
          ++ t ++ "\n") ++ "") ++ "## Endpoints\n") := rfl
  rw [h1, strAppend_empty]
  unfold mdTemplate
  simp [strAppend_assoc]

/- ===== C3 ===== -/

/-- C3: for every endpoint the splitter processes, the generated Markdown is
exactly the title heading, the timestamp line and the `## Endpoints` heading
(`mdTemplate`): the enriched descriptor's keys are `endpoint`, `data`,
`examples`, `validation`, so `generate_markdown` finds neither a
`description` key nor an `endpoints` key and emits no `### <METHOD>`
subsection, parameter row, `#### Examples` block or `#### Validation Rules`
block. -/
theorem C3_enriched_markdown (endpoint : String) (data : JObj) (e : JObj)
    (t : String) (h : process_endpoint endpoint data = some e) :
    generate_markdown e endpoint t = some (mdTemplate endpoint t)
    ∧ strContainsSub (mdTemplate endpoint t) "Generated on: " = true
    ∧ strContainsSub (mdTemplate endpoint t) "## Endpoints\n" = true := by
  obtain ⟨ex, rules, rfl⟩ := process_endpoint_shape endpoint data e h
  refine ⟨generate_markdown_enhanced _ _ _ _ endpoint t, ?_, ?_⟩
  · unfold mdTemplate
    apply strContainsSub_append_left
    apply strContainsSub_append_left
    apply strContainsSub_append_left
    apply strContainsSub_append_right
    decide
  · unfold mdTemplate
    apply strContainsSub_append_right
    decide


/-- Witness for C3 at a concrete endpoint. -/
theorem C3_enriched_markdown_witness :
    generate_markdown ((process_endpoint "/ethernet" []).getD [])
      "/ethernet" "2024-01-01 10:00:00"
      = some (mdTemplate "/ethernet" "2024-01-01 10:00:00") :=
  (C3_enriched_markdown "/ethernet" [] _ "2024-01-01 10:00:00" rfl).1

/- ===== C5 ===== -/

/-- C5: `get_example_value` resolves by (1) case-insensitive substring match
of the table's keywords against the parameter name, the first matching entry
in table order winning; (2) otherwise exact lookup of the declared type in
the same table; (3) otherwise the literal `"example_value"`; being a total
function it always returns a value. -/
theorem C5_resolution_order (ptype pname : String) :
    (∀ pre kv post, example_values = pre ++ kv :: post →
      (∀ kv2 ∈ pre, strContainsSub (strLower pname) kv2.1 = false) →
      strContainsSub (strLower pname) kv.1 = true →
      get_example_value ptype pname = kv.2)
    ∧ ((∀ kv ∈ example_values, strContainsSub (strLower pname) kv.1 = false) →
      ∀ v, example_values.lookup ptype = some v →
      get_example_value ptype pname = v)
    ∧ ((∀ kv ∈ example_values, strContainsSub (strLower pname) kv.1 = false) →
      example_values.lookup ptype = none →
      get_example_value ptype pname = .jstr "example_value") := by
  refine ⟨?_, ?_, ?_⟩
  · intro pre kv post htab hpre hkv
    unfold get_example_value
    rw [htab, listFindFirst _ pre kv post hpre hkv]
  · intro hall v hv
    unfold get_example_value
    rw [List.find?_eq_none.mpr (fun kv hm => by simp [hall kv hm]), hv]
    rfl
  · intro hall hv
    unfold get_example_value
    rw [List.find?_eq_none.mpr (fun kv hm => by simp [hall kv hm]), hv]
    rfl

/-- Witness for C5: all three resolution branches at concrete inputs. -/
theorem C5_resolution_order_witness :
    get_example_value "number" "ip" = .jstr "192.168.88.1"
    ∧ get_example_value "number" "zzz" = .jnum 1
    ∧ get_example_value "nomatch" "zzz" = .jstr "example_value" := by
  refine ⟨?_, ?_, ?_⟩
  · exact (C5_resolution_order "number" "ip").1 [] ("ip", .jstr "192.168.88.1")
      (example_values.drop 1) rfl (by intro y hy; simp at hy) (by decide)
  · exact (C5_resolution_order "number" "zzz").2.1 (by decide) (.jnum 1) rfl
  · exact (C5_resolution_order "nomatch" "zzz").2.2 (by decide) rfl

/- ===== C6 ===== -/

/-- C6: whenever the parameter name contains the substring `ip`
case-insensitively, `get_example_value` returns the fixed example IP
literal, whatever the declared type: `"ip"` is the first key of the table,
so the keyword scan hits it before anything else. -/
theorem C6_ip_keyword_wins (ptype pname : String)
    (h : strContainsSub (strLower pname) "ip" = true) :
    get_example_value ptype pname = .jstr "192.168.88.1" := by
  unfold get_example_value
  have htab : example_values
      = [] ++ ("ip", .jstr "192.168.88.1") :: example_values.drop 1 := rfl
  rw [htab, listFindFirst (fun kv => strContainsSub (strLower pname) kv.1) []
    ("ip", .jstr "192.168.88.1") (example_values.drop 1)
    (by intro y hy; simp at hy) h]

/-- Witness for C6. -/
theorem C6_ip_keyword_wins_witness :
    strContainsSub (strLower "Router_IP") "ip" = true
    ∧ get_example_value "boolean" "Router_IP" = .jstr "192.168.88.1" :=
  ⟨by decide, C6_ip_keyword_wins "boolean" "Router_IP" (by decide)⟩

/- ===== C7 ===== -/

/-- C7: every endpoint descriptor the splitter emits is (the serialization
of) a top-level mapping holding at least the keys `endpoint`, `data`,
`examples` and `validation`; it is written with `json.dump` of that
in-memory mapping (`FileData.jsonOk`), hence parses as valid JSON. -/
theorem C7_descriptor_required_keys (endpoint : String) (data : JObj) (e : JObj)
    (h : process_endpoint endpoint data = some e) :
    (["endpoint", "data", "examples", "validation"].all
      (fun k => (jLookup (.jobj e) k).isSome)) = true := by
  obtain ⟨ex, rules, rfl⟩ := process_endpoint_shape endpoint data e h
  rfl

/-- Witness for C7 at a concrete endpoint. -/
theorem C7_descriptor_required_keys_witness :
    (["endpoint", "data", "examples", "validation"].all
      (fun k => (jLookup (.jobj ((process_endpoint "/ethernet"
        [("method", .jstr "POST")]).getD [])) k).isSome)) = true :=
  C7_descriptor_required_keys "/ethernet" [("method", .jstr "POST")] _ rfl

/- ===== C10 ===== -/

/-- C10: the synthesized example response always has status `200`, and its
body depends only on the lower-cased method: `get` wraps the synthesized
request body as `{"items": [request_body]}`, `post` is
`{"result": "success", "ret": "done"}`, anything else is
`{"status": "success"}`. -/
theorem C10_response_shape (path method : String) (params rb : JObj)
    (h : requestBody params = some rb) :
    ∃ ex : ApiExample,
      generate_example_for_endpoint path method params = some ex
      ∧ jLookup ex.response "status" = some (.jnum 200)
      ∧ (strLower method = "get" →
          jLookup ex.response "body" = some (.jobj [("items", .jarr [.jobj rb])]))
      ∧ (strLower method = "post" →
          jLookup ex.response "body"
            = some (.jobj [("result", .jstr "success"), ("ret", .jstr "done")]))
      ∧ (strLower method ≠ "get" → strLower method ≠ "post" →
          jLookup ex.response "body" = some (.jobj [("status", .jstr "success")])) := by
  refine ⟨⟨.jobj [("method", .jstr method), ("path", .jstr path),
      ("body", .jobj rb)],
    .jobj [("status", .jnum 200),
      ("body",
        if strLower method == "get" then .jobj [("items", .jarr [.jobj rb])]
        else if strLower method == "post" then
          .jobj [("result", .jstr "success"), ("ret", .jstr "done")]
        else .jobj [("status", .jstr "success")])],
    "Example " ++ method ++ " request to " ++ path⟩, ?_, rfl, ?_, ?_, ?_⟩
  · unfold generate_example_for_endpoint
    rw [h]
  · intro hg
    simp [jLookup, List.lookup, hg]
  · intro hp
    simp [jLookup, List.lookup, hp]
  · intro hg hp
    simp [jLookup, List.lookup, hg, hp]

/-- Witness for C10 with a non-get, non-post method. -/
theorem C10_response_shape_witness :
    ∃ ex : ApiExample,
      generate_example_for_endpoint "/x" "DELETE" [] = some ex
      ∧ jLookup ex.response "status" = some (.jnum 200)
      ∧ jLookup ex.response "body" = some (.jobj [("status", .jstr "success")]) := by
  obtain ⟨ex, h1, h2, _, _, h5⟩ := C10_response_shape "/x" "DELETE" [] [] rfl
  exact ⟨ex, h1, h2, h5 (by decide) (by decide)⟩

/- ===== C8 ===== -/

/-- C8: output names strip path separators only at the two ends: family
`/interface` becomes directory `interface`, and endpoint `/ethernet/{id}`
becomes file name `ethernet/{id}.json` relative to the family directory,
with the embedded slash kept.  A run on such a document then aborts:
`open()` on that name raises `FileNotFoundError` because the parent
directory `interface/ethernet` was never created, so the whole
`process_raml` run fails and records nothing. -/
theorem C8_strip_only_ends :
    familyDirName "/interface" = "interface"
    ∧ endpointJsonFileName "/ethernet/{id}" = "ethernet/{id}.json"
    ∧ strContainsSub (pyStrip "/ethernet/{id}") "/" = true
    ∧ runSplitter nestedDoc "2024-01-01 10:00:00" = none := by
  refine ⟨rfl, rfl, by decide, rfl⟩

/- ===== C9 ===== -/

theorem concatMapList_append {α : Type} (f : α → List String) (l1 l2 : List α) :
    concatMapList f (l1 ++ l2) = concatMapList f l1 ++ concatMapList f l2 := by
  induction l1 with
  | nil => rfl
  | cons x xs ih => simp [concatMapList, ih]

/-- C9: a failing file does not abort validation of the rest: in both the
JSON pass and the examples pass, an unparseable file contributes exactly one
findings entry naming its path, and the files before and after it are
checked exactly as they would be on their own. -/
theorem C9_per_file_isolation :
    (∀ (pre post : List (FPath × FileData)) (p : FPath) (m : String),
      validateJsonList (pre ++ (p, FileData.jsonBad m) :: post)
        = validateJsonList pre
          ++ ["Invalid JSON in " ++ pathStr p ++ ": " ++ m]
          ++ validateJsonList post)
    ∧ (∀ (pre post : List (FPath × FileData)) (p : FPath) (m : String),
      validateExamplesList (pre ++ (p, FileData.jsonBad m) :: post)
        = validateExamplesList pre
          ++ ["Error validating example " ++ pathStr p ++ ": " ++ m]
          ++ validateExamplesList post) := by
  constructor
  · intro pre post p m
    unfold validateJsonList
    rw [concatMapList_append]
    simp [concatMapList, checkJsonFile]
  · intro pre post p m
    unfold validateExamplesList
    rw [concatMapList_append]
    simp [concatMapList, checkExampleFile]

/-- Witness for C9 on a concrete three-file list. -/
theorem C9_per_file_isolation_witness :
    validateJsonList
      [(["a", "_index.json"],
        .jsonOk (.jobj [("family", .jstr "/a"), ("endpoints", .jarr [])])),
       (["b.json"], .jsonBad "Expecting value: line 1 column 1 (char 0)"),
       (["c", "_index.json"],
        .jsonOk (.jobj [("family", .jstr "/c"), ("endpoints", .jarr [])]))]
      = validateJsonList [(["a", "_index.json"],
          .jsonOk (.jobj [("family", .jstr "/a"), ("endpoints", .jarr [])]))]
        ++ ["Invalid JSON in api/b.json: Expecting value: line 1 column 1 (char 0)"]
        ++ validateJsonList [(["c", "_index.json"],
          .jsonOk (.jobj [("family", .jstr "/c"), ("endpoints", .jarr [])]))] :=
  C9_per_file_isolation.1
    [(["a", "_index.json"],
      .jsonOk (.jobj [("family", .jstr "/a"), ("endpoints", .jarr [])]))]
    [(["c", "_index.json"],
      .jsonOk (.jobj [("family", .jstr "/c"), ("endpoints", .jarr [])]))]
    ["b.json"] "Expecting value: line 1 column 1 (char 0)"

/- ===== C4 ===== -/

/-- C4 counterexample: with `<root>/examples/foo.json` holding exactly
`{"request": {}, "response": {}}`, `validate_all` reports two errors for
that file, not zero — `validate_json_files` scans every `*.json` under the
root and demands `endpoint` and `data` of it — and with `response` removed
it reports three errors for the file, not exactly one. -/
theorem C4_examples_counterexample :
    (validate_all_errors exampleOkFS).filter
        (fun e => strContainsSub e "examples/foo.json")
      = ["Missing required field 'endpoint' in api/examples/foo.json",
         "Missing required field 'data' in api/examples/foo.json"]
    ∧ ((validate_all_errors exampleNoRespFS).filter
        (fun e => strContainsSub e "examples/foo.json")).length = 3 :=
  ⟨rfl, rfl⟩

/-- C4 amended: the examples pass itself (`validate_examples`) reports no
error for the well-formed file and exactly one error naming `response` when
it is missing; but `validate_all` additionally reports two errors for the
same file from `validate_json_files`, which treats every non-index `*.json`
file as an endpoint descriptor. -/
theorem C4_examples_check_amended :
    validate_examples exampleOkFS = []
    ∧ validate_examples exampleNoRespFS
      = ["Missing required field 'response' in example api/examples/foo.json"]
    ∧ (validate_all_errors exampleOkFS).filter
        (fun e => strContainsSub e "examples/foo.json")
      = ["Missing required field 'endpoint' in api/examples/foo.json",
         "Missing required field 'data' in api/examples/foo.json"]
    ∧ (validate_all_errors exampleNoRespFS).filter
        (fun e => strContainsSub e "examples/foo.json")
      = ["Missing required field 'endpoint' in api/examples/foo.json",
         "Missing required field 'data' in api/examples/foo.json",
         "Missing required field 'response' in example api/examples/foo.json"] :=
  ⟨rfl, rfl, rfl, rfl⟩

/- ===== C1 ===== -/

theorem writeFile_mem {α : Type} (files : List (FPath × α)) (p : FPath) (d : α) :
    (p, d) ∈ writeFile files p d := by
  unfold writeFile
  split
  case isTrue hany =>
    rw [List.any_eq_true] at hany
    obtain ⟨f, hf, hfp⟩ := hany
    refine List.mem_map.mpr ⟨f, hf, ?_⟩
    simp [hfp]
  case isFalse =>
    exact List.mem_append_right _ (List.mem_singleton.mpr rfl)

/-- Every successful splitter run ends by writing the root index, so
`index.json` with keys `generated_at`/`families` is always among the output
files. -/
theorem runSplitter_index_mem (doc : JObj) (t : String) (fs : FS)
    (h : runSplitter doc t = some fs) :
    ∃ fams, (["index.json"],
      FileData.jsonOk (.jobj [("generated_at", .jstr t),
        ("families", .jarr fams)])) ∈ fs.files := by
  have h2 : (match split_raml t doc
      ⟨mkdirp (mkdirp [] ["docs"]) ["examples"], []⟩ with
    | none => none
    | some fs1 => generate_index t fs1) = some fs := h
  clear h
  cases hs : split_raml t doc ⟨mkdirp (mkdirp [] ["docs"]) ["examples"], []⟩ with
  | none => rw [hs] at h2; exact absurd h2 (by simp)
  | some fs1 =>
    rw [hs] at h2
    have h3 : (match collectFamilies fs1 (immediateSubdirs fs1.dirs) with
      | none => none
      | some fams => fsOpenWrite fs1 ["index.json"]
          (FileData.jsonOk (.jobj [("generated_at", .jstr t),
            ("families", .jarr fams)]))) = some fs := h2
    clear h2
    cases hc : collectFamilies fs1 (immediateSubdirs fs1.dirs) with
    | none => rw [hc] at h3; exact absurd h3 (by simp)
    | some fams =>
      rw [hc] at h3
      have h4 : some (⟨fs1.dirs, writeFile fs1.files ["index.json"]
          (FileData.jsonOk (.jobj [("generated_at", .jstr t),
            ("families", .jarr fams)]))⟩ : FS) = some fs := h3
      rw [← Option.some_inj.mp h4]
      exact ⟨fams, writeFile_mem _ _ _⟩

theorem concatMapList_ne_nil_of_mem {α : Type} (f : α → List String)
    (l : List α) (x : α) (hx : x ∈ l) (hf : f x ≠ []) :
    concatMapList f l ≠ [] := by
  induction l with
  | nil => simp at hx
  | cons a tl ih =>
    intro hcon
    unfold concatMapList at hcon
    rw [List.append_eq_nil] at hcon
    rcases List.mem_cons.mp hx with rfl | hx2
    · exact hf hcon.1
    · exact ih hx2 hcon.2

/-- C1 amended: running the splitter and then the validator on the
splitter's own output never yields an empty error list, for any input
document: the root `index.json` the splitter always writes is checked by
`validate_json_files` as an endpoint descriptor and is missing `endpoint`
and `data` (further errors come from `docs/` and `examples/` being presumed
family directories, from the undefined `_validate_examples` method hit for
every endpoint descriptor, and from the cross-reference check). -/
theorem C1_roundtrip_amended (doc : JObj) (t : String) (fs : FS)
    (h : runSplitter doc t = some fs) :
    validate_all_errors fs ≠ [] := by
  obtain ⟨fams, hmem⟩ := runSplitter_index_mem doc t fs h
  have hfilter : (["index.json"],
      FileData.jsonOk (.jobj [("generated_at", .jstr t),
        ("families", .jarr fams)]))
      ∈ fs.files.filter (fun f => strEndsWith (f.1.getLastD "") ".json") :=
    List.mem_filter.mpr ⟨hmem, rfl⟩
  have hjson : validate_json_files fs ≠ [] := by
    unfold validate_json_files validateJsonList
    refine concatMapList_ne_nil_of_mem _ _ _ hfilter ?_
    intro hc
    have hck : checkJsonFile ["index.json"]
        (FileData.jsonOk (.jobj [("generated_at", .jstr t),
          ("families", .jarr fams)]))
        = ["Missing required field 'endpoint' in api/index.json",
           "Missing required field 'data' in api/index.json"] := rfl
    rw [hck] at hc
    exact absurd hc (by simp)
  intro hemp
  unfold validate_all_errors at hemp
  rw [List.append_eq_nil, List.append_eq_nil, List.append_eq_nil,
    List.append_eq_nil, List.append_eq_nil] at hemp
  exact hjson hemp.1.1.1.2

/-- Witness for C1's amended theorem at a concrete well-formed document. -/
theorem C1_roundtrip_amended_witness : validate_all_errors sampleFS ≠ [] :=
  C1_roundtrip_amended sampleDoc "2024-01-01 10:00:00" sampleFS rfl

/-- C1 counterexample: on a well-formed document (one family, one endpoint
with a `description` field), the splitter-then-validator round trip reports
eight errors, so the claimed zero-error round trip fails on the code; and
the generated Markdown file draws a missing-`## Description` warning even
though the endpoint has a `description` field, refuting the claim's
warnings parenthetical as well. -/
theorem C1_roundtrip_counterexample :
    wellFormedDoc sampleDoc = true
    ∧ validate_all_errors sampleFS
      = ["Missing docs directory in docs", "Missing _index.json in docs",
         "Missing docs directory in examples", "Missing _index.json in examples",
         "Error processing api/interface/ethernet.json: 'RamlValidator' object has no attribute '_validate_examples'",
         "Missing required field 'endpoint' in api/index.json",
         "Missing required field 'data' in api/index.json",
         "Error validating cross-references: unsupported operand type(s) for /: 'PosixPath' and 'dict'"]
    ∧ validate_all_warnings sampleFS
      = ["Missing section '## Description' in api/interface/docs/ethernet.md"]
    ∧ validate_all sampleFS = false :=
  ⟨rfl, rfl, rfl, rfl⟩

/- ===== C2: relating a splitter run to its timestamp-skeleton ===== -/

theorem writeFile_map_render (t : String) (files : List (FPath × OutItem))
    (p : FPath) (it : OutItem) :
    (writeFile files p it).map (fun f => (f.1, renderItem t f.2))
      = writeFile (files.map (fun f => (f.1, renderItem t f.2))) p
          (renderItem t it) := by
  have hany : (files.map (fun f => (f.1, renderItem t f.2))).any
      (fun f => f.1 == p) = files.any (fun f => f.1 == p) := by
    induction files with
    | nil => rfl
    | cons a l ih => simp only [List.map_cons, List.any_cons, ih]
  unfold writeFile
  rw [hany]
  cases ha : files.any (fun f => f.1 == p) with
  | false => simp
  | true =>
    simp only [if_true, if_pos, List.map_map]
    apply List.map_congr_left
    intro x _
    by_cases hx : x.1 = p
    · simp [hx]
    · simp [Function.comp, hx]

theorem find?_map_fst (t : String) (files : List (FPath × OutItem)) (q : FPath) :
    (files.map (fun f => (f.1, renderItem t f.2))).find? (fun f => f.1 == q)
      = (files.find? (fun f => f.1 == q)).map (fun f => (f.1, renderItem t f.2)) := by
  induction files with
  | nil => rfl
  | cons a l ih =>
    rw [List.map_cons, List.find?_cons, List.find?_cons]
    show (match a.1 == q with
      | true => some (a.1, renderItem t a.2)
      | false => (l.map (fun f => (f.1, renderItem t f.2))).find?
          (fun f => f.1 == q))
      = Option.map (fun f => (f.1, renderItem t f.2)) (match a.1 == q with
        | true => some a
        | false => l.find? (fun f => f.1 == q))
    cases hb : (a.1 == q) with
    | true => rfl
    | false => simpa using ih

theorem openWrite_skel (t : String) (s : SkelFS) (p : FPath) (it : OutItem) :
    fsOpenWrite (renderFS t s) p (renderItem t it)
      = (skelOpenWrite s p it).map (renderFS t) := by
  unfold fsOpenWrite skelOpenWrite
  rw [show (renderFS t s).dirs = s.dirs from rfl]
  cases h : dirExists s.dirs p.dropLast with
  | false => simp [h]
  | true =>
    show some (⟨s.dirs, writeFile (s.files.map (fun f => (f.1, renderItem t f.2)))
        p (renderItem t it)⟩ : FS)
      = some (⟨s.dirs, (writeFile s.files p it).map
          (fun f => (f.1, renderItem t f.2))⟩ : FS)
    rw [writeFile_map_render]

theorem processEndpoints_skel (t : String) (famPath : FPath) (eps : JObj) :
    ∀ s : SkelFS, processEndpoints t famPath eps (renderFS t s)
      = (skelProcessEndpoints famPath eps s).map (fun x => (renderFS t x.1, x.2)) := by
  induction eps with
  | nil => intro s; rfl
  | cons hd rest ih =>
    intro s
    obtain ⟨ep, d⟩ := hd
    cases d with
    | jobj kvs =>
      cases hpe : process_endpoint ep kvs with
      | none => simp [processEndpoints, skelProcessEndpoints, hpe]
      | some e =>
        obtain ⟨ex, rules, hsh⟩ := process_endpoint_shape ep kvs e hpe
        have hmd : generate_markdown e ep t = some (mdTemplate ep t) := by
          rw [hsh]; exact generate_markdown_enhanced _ _ _ _ ep t
        simp only [processEndpoints, skelProcessEndpoints, hpe, hmd]
        rw [show FileData.jsonOk (.jobj e)
            = renderItem t (OutItem.jsonF (.jobj e)) from rfl, openWrite_skel]
        cases hw1 : skelOpenWrite s
            (famPath ++ pySplitPath (endpointJsonFileName ep))
            (OutItem.jsonF (.jobj e)) with
        | none => rfl
        | some s1 =>
          show (match fsOpenWrite (renderFS t s1)
              (famPath ++ ["docs"] ++ pySplitPath (pyStrip ep ++ ".md"))
              (FileData.md (mdTemplate ep t)) with
            | none => none
            | some fs2 =>
              match processEndpoints t famPath rest fs2 with
              | none => none
              | some (fs3, idx) => some (fs3, JValue.jobj e :: idx))
            = Option.map (fun x => (renderFS t x.1, x.2))
              (match skelOpenWrite s1
                  (famPath ++ ["docs"] ++ pySplitPath (pyStrip ep ++ ".md"))
                  (OutItem.mdF ep) with
                | none => none
                | some s2 =>
                  match skelProcessEndpoints famPath rest s2 with
                  | none => none
                  | some (s3, idx) => some (s3, JValue.jobj e :: idx))
          rw [show FileData.md (mdTemplate ep t)
              = renderItem t (OutItem.mdF ep) from rfl, openWrite_skel]
          cases hw2 : skelOpenWrite s1
              (famPath ++ ["docs"] ++ pySplitPath (pyStrip ep ++ ".md"))
              (OutItem.mdF ep) with
          | none => rfl
          | some s2 =>
            show (match processEndpoints t famPath rest (renderFS t s2) with
              | none => none
              | some (fs3, idx) => some (fs3, JValue.jobj e :: idx))
              = Option.map (fun x => (renderFS t x.1, x.2))
                (match skelProcessEndpoints famPath rest s2 with
                  | none => none
                  | some (s3, idx) => some (s3, JValue.jobj e :: idx))
            rw [ih s2]
            cases skelProcessEndpoints famPath rest s2 with
            | none => rfl
            | some x => rfl
    | jnull => simpa [processEndpoints, skelProcessEndpoints] using ih s
    | jbool b => simpa [processEndpoints, skelProcessEndpoints] using ih s
    | jnum n => simpa [processEndpoints, skelProcessEndpoints] using ih s
    | jstr v => simpa [processEndpoints, skelProcessEndpoints] using ih s
    | jarr xs => simpa [processEndpoints, skelProcessEndpoints] using ih s

theorem process_family_skel (t family : String) (famPath : FPath) (eps : JObj)
    (s : SkelFS) :
    process_family t family famPath eps (renderFS t s)
      = (skelProcessFamily family famPath eps s).map (renderFS t) := by
  unfold process_family skelProcessFamily
  rw [processEndpoints_skel]
  cases skelProcessEndpoints famPath eps s with
  | none => rfl
  | some x =>
    obtain ⟨s1, idx⟩ := x
    show fsOpenWrite (renderFS t s1) (famPath ++ ["_index.json"])
        (FileData.jsonOk (.jobj [("family", .jstr family),
          ("endpoints", .jarr idx), ("examples", .jarr [])]))
      = (skelOpenWrite s1 (famPath ++ ["_index.json"])
          (OutItem.jsonF (.jobj [("family", .jstr family),
            ("endpoints", .jarr idx), ("examples", .jarr [])]))).map (renderFS t)
    rw [show FileData.jsonOk (.jobj [("family", .jstr family),
        ("endpoints", .jarr idx), ("examples", .jarr [])])
        = renderItem t (OutItem.jsonF (.jobj [("family", .jstr family),
          ("endpoints", .jarr idx), ("examples", .jarr [])])) from rfl]
    exact openWrite_skel t s1 _ _

theorem split_raml_skel (t : String) (doc : JObj) :
    ∀ s : SkelFS, split_raml t doc (renderFS t s)
      = (skelSplitRaml doc s).map (renderFS t) := by
  induction doc with
  | nil => intro s; rfl
  | cons hd rest ih =>
    intro s
    obtain ⟨family, eps⟩ := hd
    cases hst : strStartsWith family "/" with
    | false => simpa [split_raml, skelSplitRaml, hst] using ih s
    | true =>
      cases eps with
      | jobj epList =>
        simp only [split_raml, skelSplitRaml, hst, if_true]
        have harg : (⟨mkdirp (mkdirParents (renderFS t s).dirs
            (pySplitPath (familyDirName family)))
            (pySplitPath (familyDirName family) ++ ["docs"]),
            (renderFS t s).files⟩ : FS)
            = renderFS t ⟨mkdirp (mkdirParents s.dirs
                (pySplitPath (familyDirName family)))
                (pySplitPath (familyDirName family) ++ ["docs"]), s.files⟩ := rfl
        rw [harg, process_family_skel]
        cases skelProcessFamily family (pySplitPath (familyDirName family))
            epList ⟨mkdirp (mkdirParents s.dirs
              (pySplitPath (familyDirName family)))
              (pySplitPath (familyDirName family) ++ ["docs"]), s.files⟩ with
        | none => rfl
        | some s2 => simpa using ih s2
      | jnull => simp [split_raml, skelSplitRaml, hst]
      | jbool b => simp [split_raml, skelSplitRaml, hst]
      | jnum n => simp [split_raml, skelSplitRaml, hst]
      | jstr v => simp [split_raml, skelSplitRaml, hst]
      | jarr xs => simp [split_raml, skelSplitRaml, hst]

theorem collectFamilies_skel (t : String) (s : SkelFS)
    (hs : noIndexItem s = true) :
    ∀ names, collectFamilies (renderFS t s) names = skelCollectFamilies s names := by
  intro names
  induction names with
  | nil => rfl
  | cons d rest ih =>
    have hrf : readFile (renderFS t s) [d, "_index.json"]
        = (s.files.find? (fun f => f.1 == [d, "_index.json"])).map
            (fun f => renderItem t f.2) := by
      unfold readFile
      rw [show (renderFS t s).files
          = s.files.map (fun f => (f.1, renderItem t f.2)) from rfl, find?_map_fst]
      cases s.files.find? (fun f => f.1 == [d, "_index.json"]) with
      | none => rfl
      | some f => rfl
    unfold collectFamilies skelCollectFamilies
    rw [hrf]
    cases hf : s.files.find? (fun f => f.1 == [d, "_index.json"]) with
    | none => simpa using ih
    | some f =>
      obtain ⟨p, it⟩ := f
      cases it with
      | jsonF v =>
        show (match collectFamilies (renderFS t s) rest with
          | none => none
          | some l => some (v :: l))
          = (match skelCollectFamilies s rest with
            | none => none
            | some l => some (v :: l))
        rw [ih]
      | mdF ep => rfl
      | indexF fams =>
        exfalso
        have hmem := List.mem_of_find?_eq_some hf
        unfold noIndexItem at hs
        rw [List.all_eq_true] at hs
        have hcontra := hs _ hmem
        simp [notIndexF] at hcontra

theorem generate_index_skel (t : String) (s : SkelFS)
    (hs : noIndexItem s = true) :
    generate_index t (renderFS t s) = (skelGenerateIndex s).map (renderFS t) := by
  unfold generate_index skelGenerateIndex
  rw [show (renderFS t s).dirs = s.dirs from rfl, collectFamilies_skel t s hs]
  cases skelCollectFamilies s (immediateSubdirs s.dirs) with
  | none => rfl
  | some fams =>
    show fsOpenWrite (renderFS t s) ["index.json"]
        (FileData.jsonOk (.jobj [("generated_at", .jstr t),
          ("families", .jarr fams)]))
      = (skelOpenWrite s ["index.json"] (OutItem.indexF fams)).map (renderFS t)
    rw [show FileData.jsonOk (.jobj [("generated_at", .jstr t),
        ("families", .jarr fams)])
        = renderItem t (OutItem.indexF fams) from rfl]
    exact openWrite_skel t s ["index.json"] (OutItem.indexF fams)

theorem writeFile_all_pred (p : FPath) (it : OutItem)
    (files : List (FPath × OutItem))
    (h : files.all (fun f => notIndexF f.2) = true)
    (hit : notIndexF it = true) :
    (writeFile files p it).all (fun f => notIndexF f.2) = true := by
  unfold writeFile
  split
  · rw [List.all_eq_true] at h ⊢
    intro f hf
    obtain ⟨g, hg, hfg⟩ := List.mem_map.mp hf
    by_cases hgp : g.1 = p
    · rw [← hfg]; simp only [hgp, beq_self_eq_true, if_true]; exact hit
    · have hb : (g.1 == p) = false := beq_eq_false_iff_ne.mpr hgp
      rw [← hfg]; simp only [hb, Bool.false_eq_true, if_false]
      exact h g hg
  · rw [List.all_append]
    simp only [h, List.all_cons, List.all_nil, Bool.and_true, Bool.true_and]
    exact hit

theorem skelOpenWrite_noIndex (s : SkelFS) (p : FPath) (it : OutItem)
    (s1 : SkelFS) (h : skelOpenWrite s p it = some s1)
    (hs : noIndexItem s = true) (hit : notIndexF it = true) :
    noIndexItem s1 = true := by
  unfold skelOpenWrite at h
  split at h
  · have h2 : (⟨s.dirs, writeFile s.files p it⟩ : SkelFS) = s1 :=
      Option.some_inj.mp h
    rw [← h2]
    unfold noIndexItem
    exact writeFile_all_pred p it s.files hs hit
  · exact absurd h (by simp)

theorem skelProcessEndpoints_noIndex (famPath : FPath) (eps : JObj) :
    ∀ (s s2 : SkelFS) (idx : List JValue),
      skelProcessEndpoints famPath eps s = some (s2, idx) →
      noIndexItem s = true → noIndexItem s2 = true := by
  induction eps with
  | nil =>
    intro s s2 idx h hs
    simp only [skelProcessEndpoints, Option.some.injEq, Prod.mk.injEq] at h
    rw [← h.1]; exact hs
  | cons hd rest ih =>
    intro s s2 idx h hs
    obtain ⟨ep, d⟩ := hd
    cases d with
    | jobj kvs =>
      cases hpe : process_endpoint ep kvs with
      | none => simp [skelProcessEndpoints, hpe] at h
      | some e =>
        simp only [skelProcessEndpoints, hpe] at h
        cases hw1 : skelOpenWrite s
            (famPath ++ pySplitPath (endpointJsonFileName ep))
            (OutItem.jsonF (.jobj e)) with
        | none => simp only [hw1] at h; exact absurd h (by simp)
        | some s1 =>
          simp only [hw1] at h
          cases hw2 : skelOpenWrite s1
              (famPath ++ ["docs"] ++ pySplitPath (pyStrip ep ++ ".md"))
              (OutItem.mdF ep) with
          | none => simp only [hw2] at h; exact absurd h (by simp)
          | some sm =>
            simp only [hw2] at h
            cases hrec : skelProcessEndpoints famPath rest sm with
            | none => simp only [hrec] at h; exact absurd h (by simp)
            | some x =>
              simp only [hrec] at h
              obtain ⟨s3, idx2⟩ := x
              simp only [Option.some.injEq, Prod.mk.injEq] at h
              have hs1 : noIndexItem s1 = true :=
                skelOpenWrite_noIndex s _ _ s1 hw1 hs rfl
              have hsm : noIndexItem sm = true :=
                skelOpenWrite_noIndex s1 _ _ sm hw2 hs1 rfl
              rw [← h.1]
              exact ih _ _ _ hrec hsm
    | jnull =>
      simp only [skelProcessEndpoints] at h
      exact ih _ _ _ h hs
    | jbool b =>
      simp only [skelProcessEndpoints] at h
      exact ih _ _ _ h hs
    | jnum n =>
      simp only [skelProcessEndpoints] at h
      exact ih _ _ _ h hs
    | jstr v =>
      simp only [skelProcessEndpoints] at h
      exact ih _ _ _ h hs
    | jarr xs =>
      simp only [skelProcessEndpoints] at h
      exact ih _ _ _ h hs

theorem skelProcessFamily_noIndex (family : String) (famPath : FPath)
    (eps : JObj) (s s2 : SkelFS)
    (h : skelProcessFamily family famPath eps s = some s2)
    (hs : noIndexItem s = true) : noIndexItem s2 = true := by
  unfold skelProcessFamily at h
  cases hrec : skelProcessEndpoints famPath eps s with
  | none => simp only [hrec] at h; exact absurd h (by simp)
  | some x =>
    obtain ⟨s1, idx⟩ := x
    simp only [hrec] at h
    exact skelOpenWrite_noIndex s1 _ _ s2 h
      (skelProcessEndpoints_noIndex famPath eps s s1 idx hrec hs) rfl

theorem skelSplitRaml_noIndex (doc : JObj) :
    ∀ (s s2 : SkelFS), skelSplitRaml doc s = some s2 →
      noIndexItem s = true → noIndexItem s2 = true := by
  induction doc with
  | nil =>
    intro s s2 h hs
    simp only [skelSplitRaml, Option.some.injEq] at h
    rw [← h]; exact hs
  | cons hd rest ih =>
    intro s s2 h hs
    obtain ⟨family, eps⟩ := hd
    cases hst : strStartsWith family "/" with
    | false =>
      simp only [skelSplitRaml, hst, Bool.false_eq_true, if_false] at h
      exact ih _ _ h hs
    | true =>
      cases eps with
      | jobj epList =>
        simp only [skelSplitRaml, hst, if_true] at h
        cases hfam : skelProcessFamily family
            (pySplitPath (familyDirName family)) epList
            ⟨mkdirp (mkdirParents s.dirs (pySplitPath (familyDirName family)))
              (pySplitPath (familyDirName family) ++ ["docs"]), s.files⟩ with
        | none => simp only [hfam] at h; exact absurd h (by simp)
        | some s3 =>
          simp only [hfam] at h
          have hs1 : noIndexItem (⟨mkdirp (mkdirParents s.dirs
              (pySplitPath (familyDirName family)))
              (pySplitPath (familyDirName family) ++ ["docs"]),
              s.files⟩ : SkelFS) = true := hs
          exact ih _ _ h (skelProcessFamily_noIndex _ _ _ _ _ hfam hs1)
      | jnull => simp [skelSplitRaml, hst] at h
      | jbool b => simp [skelSplitRaml, hst] at h
      | jnum n => simp [skelSplitRaml, hst] at h
      | jstr v => simp [skelSplitRaml, hst] at h
      | jarr xs => simp [skelSplitRaml, hst] at h

/-- A faithful splitter run is the instantiation of the timestamp-free
skeleton run at the run's timestamp. -/
theorem runSplitter_skel (doc : JObj) (t : String) :
    runSplitter doc t = (skelRun doc).map (renderFS t) := by
  show (match split_raml t doc ⟨mkdirp (mkdirp [] ["docs"]) ["examples"], []⟩ with
    | none => none
    | some fs1 => generate_index t fs1)
    = (match skelSplitRaml doc ⟨mkdirp (mkdirp [] ["docs"]) ["examples"], []⟩ with
      | none => none
      | some s1 => skelGenerateIndex s1).map (renderFS t)
  rw [show (⟨mkdirp (mkdirp [] ["docs"]) ["examples"], []⟩ : FS)
      = renderFS t ⟨mkdirp (mkdirp [] ["docs"]) ["examples"], []⟩ from rfl,
    split_raml_skel]
  cases hs : skelSplitRaml doc ⟨mkdirp (mkdirp [] ["docs"]) ["examples"], []⟩ with
  | none => rfl
  | some s1 =>
    have hn : noIndexItem s1 = true := skelSplitRaml_noIndex doc _ s1 hs rfl
    show generate_index t (renderFS t s1) = (skelGenerateIndex s1).map (renderFS t)
    exact generate_index_skel t s1 hn

/-- C2 amended: two splitter runs over the same document at timestamps `t1`
and `t2` instantiate one common timestamp-skeleton.  Consequently both runs
create the same directories and the same file paths; every file except the
Markdown documents and `index.json` is byte-identical between the runs; each
Markdown document differs only in the timestamp substituted into its
`Generated on:` line (`renderItem` of `mdF`); and `index.json` differs only
in its `generated_at` value (`renderItem` of `indexF`). -/
theorem C2_idempotence_amended (doc : JObj) (t1 t2 : String) (fs1 fs2 : FS)
    (h1 : runSplitter doc t1 = some fs1) (h2 : runSplitter doc t2 = some fs2) :
    ∃ skel : SkelFS, fs1 = renderFS t1 skel ∧ fs2 = renderFS t2 skel := by
  rw [runSplitter_skel doc t1] at h1
  rw [runSplitter_skel doc t2] at h2
  cases hs : skelRun doc with
  | none => rw [hs] at h1; exact absurd h1 (by simp)
  | some skel =>
    rw [hs] at h1 h2
    have e1 : renderFS t1 skel = fs1 := Option.some_inj.mp h1
    have e2 : renderFS t2 skel = fs2 := Option.some_inj.mp h2
    exact ⟨skel, e1.symm, e2.symm⟩

/-- Witness for C2's amended theorem on two concrete runs. -/
theorem C2_idempotence_amended_witness :
    ∃ skel : SkelFS, sampleFS = renderFS "2024-01-01 10:00:00" skel
      ∧ sampleFS2 = renderFS "2024-01-02 10:00:00" skel :=
  C2_idempotence_amended sampleDoc "2024-01-01 10:00:00" "2024-01-02 10:00:00"
    sampleFS sampleFS2 rfl rfl

/-- C2 counterexample: two runs at different wall-clock times differ in a
Markdown file, not only in `index.json`'s timestamp field — every generated
`.md` document embeds `datetime.now()` in its `Generated on:` line.  (The
endpoint's JSON descriptor, by contrast, is byte-identical.) -/
theorem C2_idempotence_counterexample :
    fileMd sampleFS ["interface", "docs", "ethernet.md"]
      = some (mdTemplate "/ethernet" "2024-01-01 10:00:00")
    ∧ fileMd sampleFS2 ["interface", "docs", "ethernet.md"]
      = some (mdTemplate "/ethernet" "2024-01-02 10:00:00")
    ∧ mdTemplate "/ethernet" "2024-01-01 10:00:00"
      ≠ mdTemplate "/ethernet" "2024-01-02 10:00:00"
    ∧ fileJson sampleFS ["interface", "ethernet.json"]
      = fileJson sampleFS2 ["interface", "ethernet.json"] := by
  refine ⟨rfl, rfl, by decide, rfl⟩
